import Mathlib

set_option maxRecDepth 8000

/-!
Shallow embedding of the `Runner` class (`src/Runner.ts` of gpt-runner): a
bounded-concurrency async task queue runner.  `runAll` spawns `concurrentLimit`
logical workers over one shared queue; each worker repeatedly dequeues a task,
awaits it, records a `TaskResult` / `TaskError`, emits an event, applies the
failure-tolerance policy and either resolves/rejects the returned promise or
loops.

The JS runtime is single-threaded and cooperative: a worker's synchronous code
between two `await` points runs atomically.  The embedding therefore models a
run as a sequence of atomic steps: a `start` step is the synchronous prefix of
`runTask` (abort check, `queue.shift()`, `numActive++`, index stamping, calling
`cb` up to its first suspension), and a `finish` step is the synchronous
continuation after `await cb(...)` settles (the whole `try`/`catch`/`finally`
tail, including the recursive `runTask()` hand-off).  A schedule (`trace`) is
the list of worker ids whose pending segment runs next; claims about "all runs"
are proved for every schedule, a superset of the schedules the JS event loop
can produce.
-/

/-- A queued task descriptor: one `{ cb, label }` entry of `Runner.queue`.  The
task body `cb` is an opaque asynchronous computation whose produced value and
wall-clock duration are not representable in the embedding; for the run-level
control flow only the way the awaited call settles matters, so `cb` is modelled
by `cbResolves`: `true` when `await cb(index, label)` resolves, `false` when it
rejects. -/
structure QueuedTask where
  cbResolves : Bool
  label : Option String
deriving DecidableEq, Repr

/-- Metadata attached to every task outcome (the `meta` field of `TaskResult`
and `TaskError` in the source): the stamped `index` and the optional `label`.
The `duration` field (wall-clock milliseconds measured with
`performance.now()`) is elided: real time is not representable in the
embedding and no claim depends on it. -/
structure TaskMeta where
  index : Nat
  label : Option String
deriving DecidableEq, Repr

/-- The two event channels of the runner (the `EVENTS` constant). -/
inductive EventName where
  | taskCompleted
  | taskFailed
deriving DecidableEq, Repr

/-- Settlement of the promise returned by `runAll()`.
`resolved results` is `resolve({ results: this.completeTasks, error: null })`;
`rejected result errorMsg` is `reject({ result: this.completeTasks, error: new
Error(message) })` at a tolerance breach (the outcome lists are captured as the
value they hold at settlement time).  A JS promise settles at most once, so a
state carries `Option Settlement` and later `resolve`/`reject` calls are
no-ops (`settleWith`). -/
inductive Settlement where
  | resolved (results : List TaskMeta)
  | rejected (result : List TaskMeta) (errorMsg : String)
deriving DecidableEq, Repr

/-- Control state of one of the `concurrentLimit` logical workers spawned by
the `for` loop at the bottom of `runAll`:
`ready` - a call of `runTask()` is pending (initial spawn or the recursive
call in the `finally` block) and its synchronous prefix has not run yet;
`inFlight index cbResolves label` - the worker has dequeued a task, stamped it
with `index`, and is suspended on `await cb(index, label)`;
`done` - `runTask` returned without scheduling a successor. -/
inductive WorkerState where
  | ready
  | inFlight (index : Nat) (cbResolves : Bool) (label : Option String)
  | done
deriving DecidableEq, Repr

/-- The mutable state owned by a `Runner` instance during one `runAll()` call:
the queue, the private counters `#numActive` / `#numComplete` / `#numTotal`,
the `#abort` flag, the `#tolerance` option, the accumulators `completeTasks`
and `#failedTasks`, plus the settlement state of the returned promise and the
worker pool.  `events` is the (ghost) log of `#emit` calls in emission order,
and `assignedIndices` is the (ghost) log of the `index` value stamped at each
dequeue, in dequeue order. -/
structure RunnerState where
  queue : List QueuedTask
  numActive : Nat
  numComplete : Nat
  numTotal : Nat
  abort : Bool
  tolerance : Option Nat
  completeTasks : List TaskMeta
  failedTasks : List TaskMeta
  settled : Option Settlement
  events : List (EventName × TaskMeta)
  assignedIndices : List Nat
  workers : List WorkerState
deriving DecidableEq, Repr

/-- The JS comparison `this.#failedTasks.length > this.#tolerance`, where the
tolerance is either a non-negative integer (`some k`) or `Infinity` (`none`;
`n > Infinity` is always false, which is how `Infinity` "disables this
behavior" per the option's doc comment). -/
def breached (tol : Option Nat) (n : Nat) : Bool :=
  match tol with
  | none => false
  | some k => decide (k < n)

/-- Promise settlement is first-wins: calling `resolve` or `reject` on an
already settled promise is a no-op. -/
def settleWith (p : Option Settlement) (x : Settlement) : Option Settlement :=
  match p with
  | some y => some y
  | none => some x

/-- The aggregate error message built when the tolerance is breached:
```Runner tolerance exceeded. ${this.#failedTasks.length} tasks failed.``` -/
def toleranceMsg (n : Nat) : String :=
  "Runner tolerance exceeded. " ++ toString n ++ " tasks failed."

/-- The synchronous prefix of `runTask` for worker `w`:
`if (this.#abort) return;` then `const taskObj = this.queue.shift(); if
(!taskObj) return;` then `this.#numActive++` and
`const index = this.#numActive + this.#numComplete` (read after the
increment), after which the worker suspends on `await cb(index, label)`.
The stamped index is also appended to the ghost log `assignedIndices`. -/
def startTask (s : RunnerState) (w : Nat) : RunnerState :=
  if s.abort then
    { s with workers := s.workers.set w WorkerState.done }
  else
    match s.queue with
    | [] => { s with workers := s.workers.set w WorkerState.done }
    | t :: rest =>
      { s with
          queue := rest
          numActive := s.numActive + 1
          assignedIndices := s.assignedIndices ++ [s.numActive + 1 + s.numComplete]
          workers := s.workers.set w
            (WorkerState.inFlight (s.numActive + 1 + s.numComplete) t.cbResolves t.label) }

/-- The `try`/`catch` part of a worker's continuation after `await cb(...)`
settles.  On resolution: build the `TaskResult`, push it onto
`this.completeTasks`, `#emit('taskCompleted', ...)`.  On rejection: build the
`TaskError`, push it onto `this.#failedTasks`, `#emit('taskFailed', ...)`, and
if `this.#failedTasks.length > this.#tolerance` set `#abort` and reject the
run promise with the partial `completeTasks` and the aggregate message. -/
def recordOutcome (s : RunnerState) (index : Nat) (ok : Bool) (label : Option String) :
    RunnerState :=
  if ok then
    { s with
        completeTasks := s.completeTasks ++ [{ index := index, label := label }]
        events := s.events ++ [(EventName.taskCompleted, { index := index, label := label })] }
  else
    let sf := { s with
        failedTasks := s.failedTasks ++ [{ index := index, label := label }]
        events := s.events ++ [(EventName.taskFailed, { index := index, label := label })] }
    if breached sf.tolerance sf.failedTasks.length then
      { sf with
          abort := true
          settled := settleWith sf.settled
            (Settlement.rejected sf.completeTasks (toleranceMsg sf.failedTasks.length)) }
    else sf

/-- The `finally` block of a worker iteration: `this.#numComplete++;
this.#numActive--;` then `if (this.complete || this.#abort)` resolve the run
promise with `{ results: this.completeTasks, error: null }` and stop, else
call `runTask()` again (the worker becomes `ready`).  `this.complete` is the
getter `this.queue.length === 0 && this.#numActive === 0`. -/
def finishFinally (s : RunnerState) (w : Nat) : RunnerState :=
  let s2 := { s with numComplete := s.numComplete + 1, numActive := s.numActive - 1 }
  if (s2.queue.isEmpty && (s2.numActive == 0)) || s2.abort then
    { s2 with
        settled := settleWith s2.settled (Settlement.resolved s2.completeTasks)
        workers := s2.workers.set w WorkerState.done }
  else
    { s2 with workers := s2.workers.set w WorkerState.ready }

/-- The whole continuation of worker `w` after its awaited task settles:
`try`/`catch` (`recordOutcome`) followed by `finally` (`finishFinally`). -/
def finishTask (s : RunnerState) (w index : Nat) (ok : Bool) (label : Option String) :
    RunnerState :=
  finishFinally (recordOutcome s index ok label) w

/-- One atomic scheduler step: run the pending synchronous segment of worker
`w` (its `runTask` prefix if `ready`, its continuation if `inFlight`).  A
worker id that is out of range or `done` has no pending segment. -/
def stepRun (s : RunnerState) (w : Nat) : RunnerState :=
  match s.workers[w]? with
  | some WorkerState.ready => startTask s w
  | some (WorkerState.inFlight index ok label) => finishTask s w index ok label
  | _ => s

/-- The state at the top of `runAll()` for a fresh `Runner` whose queue holds
`tasks`: `this.#numTotal = this.queue.length` is snapshotted, counters and
accumulators are at their initial values, the returned promise is pending, and
the `for` loop has spawned `concurrentLimit` workers, each with a pending
`runTask()` call. -/
def initState (tasks : List QueuedTask) (limit : Nat) (tol : Option Nat) : RunnerState :=
  { queue := tasks
    numActive := 0
    numComplete := 0
    numTotal := tasks.length
    abort := false
    tolerance := tol
    completeTasks := []
    failedTasks := []
    settled := none
    events := []
    assignedIndices := []
    workers := List.replicate limit WorkerState.ready }

/-- The state reached by `runAll()` on a fresh runner with queue `tasks`,
`concurrentLimit = limit` and `tolerance = tol`, after the scheduler has run
the atomic segments named by `trace` (a list of worker ids). -/
def runAll (tasks : List QueuedTask) (limit : Nat) (tol : Option Nat)
    (trace : List Nat) : RunnerState :=
  trace.foldl stepRun (initState tasks limit tol)

/-- Decides `tolerance >= numberOfTasks` for a tolerance that may be
`Infinity` (`none`). -/
def tolAtLeast (tol : Option Nat) (n : Nat) : Bool :=
  match tol with
  | none => true
  | some k => decide (n ≤ k)

/-- Whether a worker is suspended on an awaited task. -/
def isInFlightW : WorkerState → Bool
  | WorkerState.inFlight _ _ _ => true
  | _ => false

/-- The `#listeners` registry: one list per event name, in registration order
(`on` pushes onto the matching list).  Handlers are opaque callbacks,
identified here by a number. -/
structure Listeners where
  taskCompleted : List Nat
  taskFailed : List Nat
deriving DecidableEq, Repr

/-- The lookup `this.#listeners[event]`. -/
def getListeners (ls : Listeners) : EventName → List Nat
  | EventName.taskCompleted => ls.taskCompleted
  | EventName.taskFailed => ls.taskFailed

/-- An argument of `#emit`: either a `TaskResult` (whose `result` field holds
the task's value - an `instanceof Error` check on it depends on that value, so
the model records its truth as `resultIsError`) or a `TaskError` (whose
`result` field is `null` and whose `error` field holds the thrown error). -/
inductive TaskEvent where
  | taskResult (resultIsError : Bool) (index : Nat) (label : Option String)
  | taskError (errorMsg : String) (index : Nat) (label : Option String)
deriving DecidableEq, Repr

/-- The type-narrowing predicate `#isFailedEvent = (e) => e.result instanceof
Error`.  For a `TaskError` the `result` field is `null` (the error lives in
`e.error`), and `null instanceof Error` is `false`; for a `TaskResult` the
`result` field is the task's value, an `Error` instance exactly when the task
resolved with an `Error` object. -/
def isFailedEvent : TaskEvent → Bool
  | TaskEvent.taskResult resultIsError _ _ => resultIsError
  | TaskEvent.taskError _ _ _ => false

/-- The predicate `#isCompletedEvent = (e) => !this.#isFailedEvent(e)`. -/
def isCompletedEvent (e : TaskEvent) : Bool :=
  !(isFailedEvent e)

/-- The dispatch loop of `#emit(event, e)`: iterate `i` from `0` to
`this.#listeners[event].length - 1`; at each `i`, if `#isCompletedEvent(e)`
call `this.#listeners['taskCompleted']?.[i]?.(e)`, else if `#isFailedEvent(e)`
call `this.#listeners['taskFailed']?.[i]?.(e)` (optional chaining: a missing
listener at position `i` is skipped).  Returns the list of performed handler
invocations `(handler id, event)` in call order. -/
def emit (ls : Listeners) (event : EventName) (e : TaskEvent) :
    List (Nat × TaskEvent) :=
  (List.range (getListeners ls event).length).filterMap fun i =>
    if isCompletedEvent e then (ls.taskCompleted[i]?).map fun h => (h, e)
    else if isFailedEvent e then (ls.taskFailed[i]?).map fun h => (h, e)
    else none

/-- The `RunnerOptions` record (handler sugar `onTaskComplete` /
`onTaskFailed` is elided; listener registration is modelled by `Listeners`).
`tolerance` is `some k` for a non-negative integer, `none` for `Infinity`. -/
structure RunnerOptions where
  verbose : Bool
  tolerance : Option Nat
deriving DecidableEq, Repr

/-- The module-level default options object:
`export const DEFAULT_RUNNER_OPTIONS: RunnerOptions = { verbose: true,
tolerance: 0 }`. -/
def DEFAULT_RUNNER_OPTIONS : RunnerOptions :=
  { verbose := true, tolerance := some 0 }

/-- `Object.assign(target, options)`: copies every own property of `options`
onto `target` in place and returns the (mutated) `target`.  The TS type
`RunnerOptions` declares both `verbose` and `tolerance` as required, so a
present source object overwrites both fields; `Object.assign(target,
undefined)` returns `target` unchanged. -/
def objectAssign (target : RunnerOptions) (options : Option RunnerOptions) :
    RunnerOptions :=
  match options with
  | none => target
  | some o => o

/-- What one `new Runner(concurrentLimit, options)` call produces: the
instance's `#verbose` and `#tolerance` fields, plus the value held by the
module-level `DEFAULT_RUNNER_OPTIONS` binding after the constructor ran - the
constructor evaluates `const opts = Object.assign(DEFAULT_RUNNER_OPTIONS,
options)`, whose target is the shared defaults object itself. -/
structure ConstructedRunner where
  verbose : Bool
  tolerance : Option Nat
  defaultsAfter : RunnerOptions
deriving DecidableEq, Repr

/-- The `Runner` constructor, with the current value of the module-level
`DEFAULT_RUNNER_OPTIONS` object threaded explicitly (it is mutable shared
state in the source). -/
def runnerConstructor (defaults : RunnerOptions) (options : Option RunnerOptions) :
    ConstructedRunner :=
  let opts := objectAssign defaults options
  { verbose := opts.verbose, tolerance := opts.tolerance, defaultsAfter := opts }

/-- Replacing the element at a valid position changes `countP` by the
difference of the predicate on the old and the new element. -/
theorem countP_set_aux {α : Type} (p : α → Bool) :
    ∀ (l : List α) (n : Nat) (b : α), l[n]? = some b → ∀ a : α,
      (l.set n a).countP p + (if p b then 1 else 0) =
        l.countP p + (if p a then 1 else 0)
  | [], n, b => by intro h; simp at h
  | x :: xs, 0, b => by
    intro h a
    rw [List.getElem?_cons_zero, Option.some_inj] at h
    subst h
    simp only [List.set_cons_zero, List.countP_cons]
    omega
  | x :: xs, n + 1, b => by
    intro h a
    rw [List.getElem?_cons_succ] at h
    have ih := countP_set_aux p xs n b h a
    simp only [List.set_cons_succ, List.countP_cons]
    omega

/-- A valid position holding an element satisfying `p` witnesses a positive
count. -/
theorem countP_pos_of_getElem {α : Type} (p : α → Bool) (l : List α) (n : Nat)
    (b : α) (h : l[n]? = some b) (hb : p b = true) : 1 ≤ l.countP p := by
  have hmem : b ∈ l := List.getElem?_mem h
  exact Nat.succ_le_of_lt (List.countP_pos_iff.2 ⟨b, hmem, hb⟩)

/-- Growing the failure count preserves a breach. -/
theorem breached_mono (tol : Option Nat) {a b : Nat} (hab : a ≤ b)
    (h : breached tol a = true) : breached tol b = true := by
  cases tol with
  | none => simp [breached] at h
  | some k =>
    simp only [breached, decide_eq_true_eq] at h ⊢
    omega

/-- If the grown failure count is not a breach, the smaller one was not
either. -/
theorem breached_antimono (tol : Option Nat) {a b : Nat} (hab : a ≤ b)
    (h : breached tol b = false) : breached tol a = false := by
  cases hc : breached tol a with
  | false => rfl
  | true => rw [breached_mono tol hab hc] at h; cases h

/-- The run-level invariant tying every component of a reachable
`RunnerState` to the source's bookkeeping: counters match the worker pool and
the queue, the abort flag tracks the tolerance comparison, the accumulators
and the event log grow with `numComplete`, the stamped indices are the
consecutive sequence numbers of the dequeues, and the promise settles only
through the resolve/reject sites of `runAll`. -/
structure RunnerInv (tasks : List QueuedTask) (limit : Nat) (tol : Option Nat)
    (s : RunnerState) : Prop where
  workersLen : s.workers.length = limit
  totalEq : s.numTotal = tasks.length
  tolEq : s.tolerance = tol
  activeCount : s.numActive = s.workers.countP isInFlightW
  counterSum : s.numActive + s.numComplete + s.queue.length = s.numTotal
  abortIff : s.abort = breached tol s.failedTasks.length
  outcomesEq : s.completeTasks.length + s.failedTasks.length = s.numComplete
  eventsLen : s.events.length = s.numComplete
  indicesEq : s.assignedIndices = List.range' 1 (s.numActive + s.numComplete)
  rejectedAbort : ∀ res msg, s.settled = some (Settlement.rejected res msg) →
    s.abort = true
  abortSettled : s.abort = true → s.settled.isSome = true
  resolvedNoAbort : s.abort = false → ∀ res,
    s.settled = some (Settlement.resolved res) →
    res = s.completeTasks ∧ s.queue = [] ∧ s.numActive = 0
  unsettledStart : s.numComplete = 0 → s.settled = none
  drainedSettled : s.queue = [] → s.numActive = 0 → 0 < s.numComplete →
    s.settled.isSome = true

/-- The invariant holds at the top of `runAll()`. -/
theorem runnerInv_init (tasks : List QueuedTask) (limit : Nat) (tol : Option Nat) :
    RunnerInv tasks limit tol (initState tasks limit tol) := by
  refine ⟨?_, rfl, rfl, ?_, ?_, ?_, rfl, rfl, rfl, ?_, ?_, ?_, fun _ => rfl, ?_⟩
  · simp [initState]
  · simp [initState, List.countP_replicate, isInFlightW]
  · simp [initState]
  · cases tol <;> simp [initState, breached]
  · intro res msg h; simp [initState] at h
  · intro h; simp [initState] at h
  · intro _ res h; simp [initState] at h
  · intro _ _ h; simp [initState] at h

/-- Replacing a worker that is not in flight by another non-in-flight state
(the `return` paths of `runTask`) preserves the invariant. -/
theorem runnerInv_set_worker (tasks : List QueuedTask) (limit : Nat)
    (tol : Option Nat) (s : RunnerState) (w : Nat)
    (h : RunnerInv tasks limit tol s) (b x : WorkerState)
    (hw : s.workers[w]? = some b) (hb : isInFlightW b = false)
    (hx : isInFlightW x = false) :
    RunnerInv tasks limit tol { s with workers := s.workers.set w x } := by
  have hcount : (s.workers.set w x).countP isInFlightW =
      s.workers.countP isInFlightW := by
    have haux := countP_set_aux isInFlightW s.workers w b hw x
    rw [hb, hx] at haux
    simpa using haux
  refine ⟨?_, h.totalEq, h.tolEq, ?_, h.counterSum, h.abortIff, h.outcomesEq,
    h.eventsLen, h.indicesEq, h.rejectedAbort, h.abortSettled, h.resolvedNoAbort,
    h.unsettledStart, h.drainedSettled⟩
  · show (s.workers.set w x).length = limit
    rw [List.length_set]
    exact h.workersLen
  · show s.numActive = (s.workers.set w x).countP isInFlightW
    rw [hcount]
    exact h.activeCount

/-- A `start` step of a `ready` worker preserves the invariant. -/
theorem runnerInv_start (tasks : List QueuedTask) (limit : Nat) (tol : Option Nat)
    (s : RunnerState) (w : Nat) (h : RunnerInv tasks limit tol s)
    (hw : s.workers[w]? = some WorkerState.ready) :
    RunnerInv tasks limit tol (startTask s w) := by
  by_cases ha : s.abort = true
  · have hred : startTask s w = { s with workers := s.workers.set w WorkerState.done } := by
      simp [startTask, ha]
    rw [hred]
    exact runnerInv_set_worker tasks limit tol s w h WorkerState.ready WorkerState.done hw rfl rfl
  · have ha2 : s.abort = false := by simpa using ha
    cases hq : s.queue with
    | nil =>
      have hred : startTask s w = { s with workers := s.workers.set w WorkerState.done } := by
        simp [startTask, ha2, hq]
      rw [hred]
      exact runnerInv_set_worker tasks limit tol s w h WorkerState.ready WorkerState.done hw rfl rfl
    | cons t rest =>
      have hred : startTask s w = { s with
          queue := rest
          numActive := s.numActive + 1
          assignedIndices := s.assignedIndices ++ [s.numActive + 1 + s.numComplete]
          workers := s.workers.set w
            (WorkerState.inFlight (s.numActive + 1 + s.numComplete) t.cbResolves t.label) } := by
        simp [startTask, ha2, hq]
      rw [hred]
      refine ⟨?_, h.totalEq, h.tolEq, ?_, ?_, h.abortIff, h.outcomesEq,
        h.eventsLen, ?_, h.rejectedAbort, h.abortSettled, ?_, h.unsettledStart, ?_⟩
      · show (s.workers.set w _).length = limit
        rw [List.length_set]
        exact h.workersLen
      · show s.numActive + 1 = (s.workers.set w
            (WorkerState.inFlight (s.numActive + 1 + s.numComplete) t.cbResolves t.label)).countP
            isInFlightW
        have haux := countP_set_aux isInFlightW s.workers w WorkerState.ready hw
          (WorkerState.inFlight (s.numActive + 1 + s.numComplete) t.cbResolves t.label)
        have hac := h.activeCount
        simp [isInFlightW] at haux
        omega
      · show s.numActive + 1 + s.numComplete + rest.length = s.numTotal
        have hcs := h.counterSum
        rw [hq] at hcs
        simp only [List.length_cons] at hcs
        omega
      · show s.assignedIndices ++ [s.numActive + 1 + s.numComplete] =
          List.range' 1 (s.numActive + 1 + s.numComplete)
        rw [h.indicesEq]
        have h1 : s.numActive + 1 + s.numComplete = (s.numActive + s.numComplete) + 1 := by
          omega
        rw [h1, List.range'_concat]
        have h2 : 1 + 1 * (s.numActive + s.numComplete) = s.numActive + s.numComplete + 1 := by
          ring
        rw [h2]
      · intro ha3 res hres
        obtain ⟨_, hqe, _⟩ := h.resolvedNoAbort ha3 res hres
        rw [hq] at hqe
        exact absurd hqe (List.cons_ne_nil t rest)
      · intro _ h2 _
        exact absurd h2 (Nat.succ_ne_zero s.numActive)

/-- The state of the runner between the `try`/`catch` part and the `finally`
part of a worker's continuation: worker `w` is still marked in flight and
`numActive`/`numComplete` are not yet adjusted, but the settled task's outcome
and event have been recorded (so the accumulators are one ahead of
`numComplete`). -/
structure MidInv (tasks : List QueuedTask) (limit : Nat) (tol : Option Nat)
    (w : Nat) (m : RunnerState) : Prop where
  workersLen : m.workers.length = limit
  totalEq : m.numTotal = tasks.length
  tolEq : m.tolerance = tol
  activeCount : m.numActive = m.workers.countP isInFlightW
  counterSum : m.numActive + m.numComplete + m.queue.length = m.numTotal
  abortIff : m.abort = breached tol m.failedTasks.length
  outcomesEq1 : m.completeTasks.length + m.failedTasks.length = m.numComplete + 1
  eventsLen1 : m.events.length = m.numComplete + 1
  indicesEq : m.assignedIndices = List.range' 1 (m.numActive + m.numComplete)
  rejectedAbort : ∀ res msg, m.settled = some (Settlement.rejected res msg) →
    m.abort = true
  abortSettled : m.abort = true → m.settled.isSome = true
  noResolved : m.abort = false → ∀ res, m.settled ≠ some (Settlement.resolved res)
  activePos : 1 ≤ m.numActive
  workerAt : ∃ b, m.workers[w]? = some b ∧ isInFlightW b = true

/-- The `try`/`catch` part of a finish step establishes the mid-state
invariant. -/
theorem midInv_record (tasks : List QueuedTask) (limit : Nat) (tol : Option Nat)
    (s : RunnerState) (w index : Nat) (ok : Bool) (label : Option String)
    (h : RunnerInv tasks limit tol s)
    (hw : s.workers[w]? = some (WorkerState.inFlight index ok label)) :
    MidInv tasks limit tol w (recordOutcome s index ok label) := by
  have hA1 : 1 ≤ s.numActive := by
    rw [h.activeCount]
    exact countP_pos_of_getElem isInFlightW s.workers w _ hw rfl
  have hnores : s.abort = false → ∀ res, s.settled ≠ some (Settlement.resolved res) := by
    intro ha res hres
    obtain ⟨_, _, hA0⟩ := h.resolvedNoAbort ha res hres
    omega
  cases ok with
  | true =>
    have hred : recordOutcome s index true label = { s with
        completeTasks := s.completeTasks ++ [{ index := index, label := label }]
        events := s.events ++ [(EventName.taskCompleted,
          { index := index, label := label })] } := by
      simp [recordOutcome]
    rw [hred]
    refine ⟨h.workersLen, h.totalEq, h.tolEq, h.activeCount, h.counterSum,
      h.abortIff, ?_, ?_, h.indicesEq, h.rejectedAbort, h.abortSettled,
      hnores, hA1, ⟨WorkerState.inFlight index true label, hw, rfl⟩⟩
    · show (s.completeTasks ++ [_]).length + s.failedTasks.length = s.numComplete + 1
      have hoc := h.outcomesEq
      simp only [List.length_append, List.length_cons, List.length_nil]
      omega
    · show (s.events ++ [_]).length = s.numComplete + 1
      have hev := h.eventsLen
      simp only [List.length_append, List.length_cons, List.length_nil]
      omega
  | false =>
    by_cases hbr : breached tol (s.failedTasks.length + 1) = true
    · have hred : recordOutcome s index false label = { s with
          failedTasks := s.failedTasks ++ [{ index := index, label := label }]
          events := s.events ++ [(EventName.taskFailed,
            { index := index, label := label })]
          abort := true
          settled := settleWith s.settled (Settlement.rejected s.completeTasks
            (toleranceMsg (s.failedTasks.length + 1))) } := by
        simp [recordOutcome, h.tolEq, hbr]
      rw [hred]
      refine ⟨h.workersLen, h.totalEq, h.tolEq, h.activeCount, h.counterSum,
        ?_, ?_, ?_, h.indicesEq, fun _ _ _ => rfl, ?_, ?_, hA1,
        ⟨WorkerState.inFlight index false label, hw, rfl⟩⟩
      · show true = breached tol (s.failedTasks ++ [_]).length
        simp only [List.length_append, List.length_cons, List.length_nil]
        exact hbr.symm
      · show s.completeTasks.length + (s.failedTasks ++ [_]).length = s.numComplete + 1
        have hoc := h.outcomesEq
        simp only [List.length_append, List.length_cons, List.length_nil]
        omega
      · show (s.events ++ [_]).length = s.numComplete + 1
        have hev := h.eventsLen
        simp only [List.length_append, List.length_cons, List.length_nil]
        omega
      · intro _
        cases hset : s.settled <;> simp [settleWith, hset]
      · intro hfalse
        exact absurd hfalse (by simp)
    · have hbr2 : breached tol (s.failedTasks.length + 1) = false := by
        simpa using hbr
      have hred : recordOutcome s index false label = { s with
          failedTasks := s.failedTasks ++ [{ index := index, label := label }]
          events := s.events ++ [(EventName.taskFailed,
            { index := index, label := label })] } := by
        simp [recordOutcome, h.tolEq, hbr2]
      rw [hred]
      refine ⟨h.workersLen, h.totalEq, h.tolEq, h.activeCount, h.counterSum,
        ?_, ?_, ?_, h.indicesEq, h.rejectedAbort, h.abortSettled, hnores, hA1,
        ⟨WorkerState.inFlight index false label, hw, rfl⟩⟩
      · show s.abort = breached tol (s.failedTasks ++ [_]).length
        simp only [List.length_append, List.length_cons, List.length_nil]
        rw [hbr2, h.abortIff]
        exact breached_antimono tol (Nat.le_succ s.failedTasks.length) hbr2
      · show s.completeTasks.length + (s.failedTasks ++ [_]).length = s.numComplete + 1
        have hoc := h.outcomesEq
        simp only [List.length_append, List.length_cons, List.length_nil]
        omega
      · show (s.events ++ [_]).length = s.numComplete + 1
        have hev := h.eventsLen
        simp only [List.length_append, List.length_cons, List.length_nil]
        omega

/-- The `finally` part of a finish step restores the full invariant from the
mid-state invariant. -/
theorem runnerInv_finishFinally (tasks : List QueuedTask) (limit : Nat)
    (tol : Option Nat) (m : RunnerState) (w : Nat)
    (h : MidInv tasks limit tol w m) :
    RunnerInv tasks limit tol (finishFinally m w) := by
  obtain ⟨b, hwb, hbt⟩ := h.workerAt
  have hset : ∀ x : WorkerState, isInFlightW x = false →
      (m.workers.set w x).countP isInFlightW + 1 = m.workers.countP isInFlightW := by
    intro x hx
    have haux := countP_set_aux isInFlightW m.workers w b hwb x
    rw [hbt, hx] at haux
    simpa using haux
  by_cases hc : ((m.queue.isEmpty && ((m.numActive - 1) == 0)) || m.abort) = true
  · have hred : finishFinally m w = { m with
        numComplete := m.numComplete + 1
        numActive := m.numActive - 1
        settled := settleWith m.settled (Settlement.resolved m.completeTasks)
        workers := m.workers.set w WorkerState.done } := by
      simp only [finishFinally]
      rw [if_pos hc]
    rw [hred]
    refine ⟨?_, h.totalEq, h.tolEq, ?_, ?_, h.abortIff, h.outcomesEq1,
      h.eventsLen1, ?_, ?_, ?_, ?_, ?_, ?_⟩
    · show (m.workers.set w WorkerState.done).length = limit
      rw [List.length_set]
      exact h.workersLen
    · show m.numActive - 1 = (m.workers.set w WorkerState.done).countP isInFlightW
      have h1 := hset WorkerState.done rfl
      have h2 := h.activeCount
      omega
    · show m.numActive - 1 + (m.numComplete + 1) + m.queue.length = m.numTotal
      have h1 := h.counterSum
      have h2 := h.activePos
      omega
    · show m.assignedIndices = List.range' 1 (m.numActive - 1 + (m.numComplete + 1))
      have h1 : m.numActive - 1 + (m.numComplete + 1) = m.numActive + m.numComplete := by
        have := h.activePos
        omega
      rw [h1]
      exact h.indicesEq
    · intro res msg hres
      show m.abort = true
      cases hm : m.settled with
      | none =>
        rw [hm] at hres
        simp [settleWith] at hres
      | some y =>
        rw [hm] at hres
        simp only [settleWith, Option.some_inj] at hres
        exact h.rejectedAbort res msg (by rw [hm, hres])
    · intro _
      cases hm : m.settled <;> simp [settleWith, hm]
    · intro ha res hres
      have hc2 := hc
      rw [ha] at hc2
      simp only [Bool.or_false, Bool.and_eq_true, beq_iff_eq] at hc2
      obtain ⟨hqe, hA0⟩ := hc2
      have hqe2 : m.queue = [] := by
        cases hq : m.queue with
        | nil => rfl
        | cons a as => rw [hq] at hqe; simp at hqe
      cases hm : m.settled with
      | none =>
        rw [hm] at hres
        simp only [settleWith, Option.some_inj, Settlement.resolved.injEq] at hres
        exact ⟨hres.symm, hqe2, hA0⟩
      | some y =>
        rw [hm] at hres
        simp only [settleWith, Option.some_inj] at hres
        exact absurd (by rw [hm, hres]) (h.noResolved ha res)
    · intro hC
      exact absurd hC (Nat.succ_ne_zero m.numComplete)
    · intro _ _ _
      cases hm : m.settled <;> simp [settleWith, hm]
  · have hc2 : ((m.queue.isEmpty && ((m.numActive - 1) == 0)) || m.abort) = false := by
      simpa using hc
    have hred : finishFinally m w = { m with
        numComplete := m.numComplete + 1
        numActive := m.numActive - 1
        workers := m.workers.set w WorkerState.ready } := by
      simp only [finishFinally]
      rw [if_neg (by simp [hc2])]
    rw [hred]
    simp only [Bool.or_eq_false_iff, Bool.and_eq_false_iff] at hc2
    obtain ⟨hleft, habort⟩ := hc2
    refine ⟨?_, h.totalEq, h.tolEq, ?_, ?_, h.abortIff, h.outcomesEq1,
      h.eventsLen1, ?_, ?_, ?_, ?_, ?_, ?_⟩
    · show (m.workers.set w WorkerState.ready).length = limit
      rw [List.length_set]
      exact h.workersLen
    · show m.numActive - 1 = (m.workers.set w WorkerState.ready).countP isInFlightW
      have h1 := hset WorkerState.ready rfl
      have h2 := h.activeCount
      omega
    · show m.numActive - 1 + (m.numComplete + 1) + m.queue.length = m.numTotal
      have h1 := h.counterSum
      have h2 := h.activePos
      omega
    · show m.assignedIndices = List.range' 1 (m.numActive - 1 + (m.numComplete + 1))
      have h1 : m.numActive - 1 + (m.numComplete + 1) = m.numActive + m.numComplete := by
        have := h.activePos
        omega
      rw [h1]
      exact h.indicesEq
    · exact h.rejectedAbort
    · intro hab
      exact h.abortSettled hab
    · intro ha res hres
      exact absurd hres (h.noResolved ha res)
    · intro hC
      exact absurd hC (Nat.succ_ne_zero m.numComplete)
    · intro hq hA _
      have hq2 : m.queue = [] := hq
      have hA2 : m.numActive - 1 = 0 := hA
      rcases hleft with h1 | h1
      · rw [hq2] at h1
        simp at h1
      · rw [hA2] at h1
        simp at h1

/-- Every scheduler step preserves the run invariant. -/
theorem runnerInv_step (tasks : List QueuedTask) (limit : Nat) (tol : Option Nat)
    (s : RunnerState) (w : Nat) (h : RunnerInv tasks limit tol s) :
    RunnerInv tasks limit tol (stepRun s w) := by
  cases hw : s.workers[w]? with
  | none =>
    unfold stepRun
    rw [hw]
    exact h
  | some st =>
    cases st with
    | ready =>
      unfold stepRun
      rw [hw]
      exact runnerInv_start tasks limit tol s w h hw
    | done =>
      unfold stepRun
      rw [hw]
      exact h
    | inFlight index ok label =>
      unfold stepRun
      rw [hw]
      exact runnerInv_finishFinally tasks limit tol _ w
        (midInv_record tasks limit tol s w index ok label h hw)

/-- The invariant is stable under any schedule suffix. -/
theorem runnerInv_fold (tasks : List QueuedTask) (limit : Nat) (tol : Option Nat) :
    ∀ (trace : List Nat) (s : RunnerState), RunnerInv tasks limit tol s →
      RunnerInv tasks limit tol (trace.foldl stepRun s)
  | [], _, hs => hs
  | w :: tr, s, hs =>
    runnerInv_fold tasks limit tol tr (stepRun s w)
      (runnerInv_step tasks limit tol s w hs)

/-- Every state reachable by `runAll` under any schedule satisfies the run
invariant. -/
theorem runnerInv_runAll (tasks : List QueuedTask) (limit : Nat) (tol : Option Nat)
    (trace : List Nat) : RunnerInv tasks limit tol (runAll tasks limit tol trace) :=
  runnerInv_fold tasks limit tol trace (initState tasks limit tol)
    (runnerInv_init tasks limit tol)

/-- C7: at every point during a run - i.e. in every state reachable under any
schedule - the counters satisfy
`numActive + numComplete + len(queue) == numTotal`, with `numTotal` the queue
length snapshotted at the top of `runAll()`.  (The equality in fact survives
an abort as well, since aborting only stops dequeues and never removes queued
descriptors.) -/
theorem C7_counter_invariant (tasks : List QueuedTask) (limit : Nat)
    (tol : Option Nat) (trace : List Nat) :
    (runAll tasks limit tol trace).numActive +
        (runAll tasks limit tol trace).numComplete +
        (runAll tasks limit tol trace).queue.length =
      (runAll tasks limit tol trace).numTotal ∧
    (runAll tasks limit tol trace).numTotal = tasks.length :=
  ⟨(runnerInv_runAll tasks limit tol trace).counterSum,
    (runnerInv_runAll tasks limit tol trace).totalEq⟩

/-- C8: at every observable instant of a run - i.e. in every state reachable
under any schedule - the number of dequeued-but-unsettled tasks `numActive`
never exceeds `concurrentLimit`: each of the `concurrentLimit` workers holds
at most one task in flight. -/
theorem C8_active_le_limit (tasks : List QueuedTask) (limit : Nat)
    (tol : Option Nat) (trace : List Nat) :
    (runAll tasks limit tol trace).numActive ≤ limit := by
  have hi := runnerInv_runAll tasks limit tol trace
  have h1 : List.countP isInFlightW (runAll tasks limit tol trace).workers ≤
      (runAll tasks limit tol trace).workers.length :=
    List.countP_le_length isInFlightW
  have h2 := hi.workersLen
  have h3 := hi.activeCount
  omega

/-- C9: the index stamped on each dequeued task is
`this.#numActive + this.#numComplete` read right after `this.#numActive++`
(that is literally how `startTask` computes it), and these stamps form the
monotone sequence of dequeue serial numbers: in every reachable state the
ghost log of stamped indices, in dequeue order, is exactly
`[1, 2, ..., numActive + numComplete]` - the k-th task ever dequeued receives
index `k`, not its original queue position. -/
theorem C9_index_sequence (tasks : List QueuedTask) (limit : Nat)
    (tol : Option Nat) (trace : List Nat) :
    (runAll tasks limit tol trace).assignedIndices =
      List.range' 1 ((runAll tasks limit tol trace).numActive +
        (runAll tasks limit tol trace).numComplete) :=
  (runnerInv_runAll tasks limit tol trace).indicesEq

/-- C3 (refuting the claim): if `runAll()` is invoked with an empty queue,
every worker returns at `if (!taskObj) return` before ever reaching the
`finally` block, so `resolve` is never called: under every schedule the
returned promise stays pending (`settled = none`) - it does NOT resolve with
`results = []`.  No worker performs any dequeue (the dequeue log, the event
log and both accumulators stay empty). -/
theorem C3_empty_queue_never_settles (limit : Nat) (tol : Option Nat)
    (trace : List Nat) :
    (runAll [] limit tol trace).settled = none ∧
    (runAll [] limit tol trace).assignedIndices = [] ∧
    (runAll [] limit tol trace).events = [] ∧
    (runAll [] limit tol trace).completeTasks = [] ∧
    (runAll [] limit tol trace).failedTasks = [] := by
  have hi := runnerInv_runAll [] limit tol trace
  have htot := hi.totalEq
  simp only [List.length_nil] at htot
  have hsum := hi.counterSum
  have hC : (runAll [] limit tol trace).numComplete = 0 := by omega
  have hA : (runAll [] limit tol trace).numActive = 0 := by omega
  have hoc := hi.outcomesEq
  have hev := hi.eventsLen
  refine ⟨hi.unsettledStart hC, ?_, ?_, ?_, ?_⟩
  · rw [hi.indicesEq, hA, hC]
    rfl
  · exact List.length_eq_zero.1 (by omega)
  · exact List.length_eq_zero.1 (by omega)
  · exact List.length_eq_zero.1 (by omega)

/-- C2 (refuting the claim): `#emit` misdispatches failure outcomes.
`#isFailedEvent` tests `e.result instanceof Error`, but a `TaskError` carries
`result: null` (its error lives in `e.error`), so every `TaskError` is
classified as a completed event: (1) with one handler registered for
`'taskFailed'` and none for `'taskCompleted'`, emitting a failure invokes no
handler at all; (2) with handlers on both channels, emitting a failure
delivers the `TaskError` to the `'taskCompleted'` handler, never to the
`'taskFailed'` one; (3) only the success path behaves as specified. -/
theorem C2_emit_misdispatch :
    emit { taskCompleted := [], taskFailed := [7] } EventName.taskFailed
      (TaskEvent.taskError "boom" 1 none) = [] ∧
    emit { taskCompleted := [5], taskFailed := [7] } EventName.taskFailed
      (TaskEvent.taskError "boom" 1 none) =
      [(5, TaskEvent.taskError "boom" 1 none)] ∧
    emit { taskCompleted := [5, 6], taskFailed := [] } EventName.taskCompleted
      (TaskEvent.taskResult false 1 none) =
      [(5, TaskEvent.taskResult false 1 none),
        (6, TaskEvent.taskResult false 1 none)] :=
  ⟨rfl, rfl, rfl⟩

/-- C10: `new Runner(limit, options)` evaluates
`Object.assign(DEFAULT_RUNNER_OPTIONS, options)`, whose target is the shared
module-level defaults object, so constructing a first runner with options `o`
overwrites the defaults with `o` in place; a second runner constructed
without options then silently inherits the first runner's `tolerance` and
`verbose` values (instead of the documented `{ verbose: true, tolerance: 0 }`
whenever `o` differs from them). -/
theorem C10_defaults_mutation (o : RunnerOptions) :
    (runnerConstructor DEFAULT_RUNNER_OPTIONS (some o)).defaultsAfter = o ∧
    (runnerConstructor
        (runnerConstructor DEFAULT_RUNNER_OPTIONS (some o)).defaultsAfter
        none).tolerance = o.tolerance ∧
    (runnerConstructor
        (runnerConstructor DEFAULT_RUNNER_OPTIONS (some o)).defaultsAfter
        none).verbose = o.verbose :=
  ⟨rfl, rfl, rfl⟩

/-- C4 (refuting the claim as stated): `results` is `this.completeTasks`,
which holds only `TaskResult`s, so with `tolerance >= numberOfTasks` a run
containing failures resolves with FEWER results than enqueued tasks.
Concretely: one enqueued task that rejects, `tolerance = 1 >= 1`,
`concurrentLimit = 1`, the single JS schedule (spawn worker 0, its task
settles): the run resolves with `results = []` of length 0, not 1. -/
theorem C4_counterexample :
    tolAtLeast (some 1) (List.length [QueuedTask.mk false none]) = true ∧
    (runAll [QueuedTask.mk false none] 1 (some 1) [0, 0]).settled =
      some (Settlement.resolved []) ∧
    (runAll [QueuedTask.mk false none] 1 (some 1) [0, 0]).numTotal = 1 ∧
    (runAll [QueuedTask.mk false none] 1 (some 1) [0, 0]).failedTasks.length = 1 :=
  ⟨rfl, rfl, rfl, rfl⟩

/-- C4 (amended): for every run with `tolerance >= numberOfTasks`, the run
never rejects; once every task has settled the promise is resolved; and a
resolution carries exactly the successful outcomes - `len(results) +
numberOfFailures = numberOfTasks` (failures appear only through failed events
and the failure accumulator, not in `results`). -/
theorem C4_amended (tasks : List QueuedTask) (limit : Nat) (tol : Option Nat)
    (trace : List Nat) (h : tolAtLeast tol tasks.length = true) :
    (∀ res msg, (runAll tasks limit tol trace).settled ≠
      some (Settlement.rejected res msg)) ∧
    ((runAll tasks limit tol trace).numComplete = tasks.length →
      0 < tasks.length →
      ((runAll tasks limit tol trace).settled).isSome = true) ∧
    (∀ res, (runAll tasks limit tol trace).settled =
        some (Settlement.resolved res) →
      res.length + (runAll tasks limit tol trace).failedTasks.length =
        tasks.length) := by
  have hi := runnerInv_runAll tasks limit tol trace
  have hoc := hi.outcomesEq
  have hsum := hi.counterSum
  have htot := hi.totalEq
  have hfle : (runAll tasks limit tol trace).failedTasks.length ≤ tasks.length := by
    omega
  have habort : (runAll tasks limit tol trace).abort = false := by
    rw [hi.abortIff]
    cases tol with
    | none => rfl
    | some k =>
      simp only [tolAtLeast, decide_eq_true_eq] at h
      simp only [breached, decide_eq_false_iff_not]
      omega
  refine ⟨?_, ?_, ?_⟩
  · intro res msg hres
    have hab := hi.rejectedAbort res msg hres
    simp [hab] at habort
  · intro hC hpos
    have hq0 : (runAll tasks limit tol trace).queue.length = 0 := by omega
    have hA0 : (runAll tasks limit tol trace).numActive = 0 := by omega
    exact hi.drainedSettled (List.length_eq_zero.1 hq0) hA0 (by omega)
  · intro res hres
    obtain ⟨hr, hq, hA⟩ := hi.resolvedNoAbort habort res hres
    have hq0 : (runAll tasks limit tol trace).queue.length = 0 := by
      rw [hq]
      rfl
    rw [hr]
    omega

/-- Witness for `C4_amended` at the concrete run of `C4_counterexample`: the
hypothesis `tolerance >= numberOfTasks` holds (`1 >= 1`), every task has
settled, and the theorem yields that the promise is resolved. -/
theorem C4_amended_witness :
    ((runAll [QueuedTask.mk false none] 1 (some 1) [0, 0]).settled).isSome = true :=
  (C4_amended [QueuedTask.mk false none] 1 (some 1) [0, 0] (by decide)).2.1 rfl
    (by decide)

/-- C6 (refuting the claim as stated): with `tolerance = 0`,
`concurrentLimit = 1`, two enqueued tasks of which the first rejects, the
first failure aborts and settles the run (rejection), the worker stops, and
the second task - still sitting in the queue - is never executed: by the time
the run settles only one outcome exists across both accumulators for two
enqueued tasks, so "each enqueued task produces exactly one outcome" fails
(the second task produces zero). -/
theorem C6_counterexample :
    ((runAll [QueuedTask.mk false none, QueuedTask.mk true none] 1 (some 0)
        [0, 0]).settled).isSome = true ∧
    (runAll [QueuedTask.mk false none, QueuedTask.mk true none] 1 (some 0)
        [0, 0]).completeTasks.length +
      (runAll [QueuedTask.mk false none, QueuedTask.mk true none] 1 (some 0)
        [0, 0]).failedTasks.length = 1 ∧
    (runAll [QueuedTask.mk false none, QueuedTask.mk true none] 1 (some 0)
        [0, 0]).numTotal = 2 ∧
    (runAll [QueuedTask.mk false none, QueuedTask.mk true none] 1 (some 0)
        [0, 0]).queue.length = 1 :=
  ⟨rfl, rfl, rfl, rfl⟩

/-- C6 (amended): each enqueued task produces AT MOST one outcome (the
outcome count across both accumulators equals `numComplete`, which never
exceeds the number of enqueued tasks); and in a run that settles by
resolution with the abort flag unset (a clean drain), each enqueued task
produces exactly one outcome. -/
theorem C6_amended (tasks : List QueuedTask) (limit : Nat) (tol : Option Nat)
    (trace : List Nat) :
    (runAll tasks limit tol trace).completeTasks.length +
        (runAll tasks limit tol trace).failedTasks.length ≤ tasks.length ∧
    ((runAll tasks limit tol trace).abort = false → ∀ res,
      (runAll tasks limit tol trace).settled = some (Settlement.resolved res) →
      (runAll tasks limit tol trace).completeTasks.length +
          (runAll tasks limit tol trace).failedTasks.length = tasks.length) := by
  have hi := runnerInv_runAll tasks limit tol trace
  have hoc := hi.outcomesEq
  have hsum := hi.counterSum
  have htot := hi.totalEq
  constructor
  · omega
  · intro ha res hres
    obtain ⟨_, hq, hA⟩ := hi.resolvedNoAbort ha res hres
    have hq0 : (runAll tasks limit tol trace).queue.length = 0 := by
      rw [hq]
      rfl
    omega

/-- Witness for `C6_amended`: a clean one-task run (task resolves,
`tolerance = 0`, schedule `[0, 0]`) settles by resolution with the abort flag
unset, and the theorem yields exactly one outcome for the one enqueued
task. -/
theorem C6_amended_witness :
    (runAll [QueuedTask.mk true none] 1 (some 0) [0, 0]).completeTasks.length +
      (runAll [QueuedTask.mk true none] 1 (some 0) [0, 0]).failedTasks.length = 1 :=
  (C6_amended [QueuedTask.mk true none] 1 (some 0) [0, 0]).2 rfl
    [{ index := 1, label := none }] rfl

/-- C1: the tolerance policy of `runAll`.  In every reachable state of a run
with `tolerance = k`: (a) while at most `k` tasks have failed, the abort flag
is unset and the promise has not been rejected; (b) when the (k+1)-th failure
is processed (a worker whose awaited task rejected finishes while exactly `k`
failures are recorded), the step sets the abort flag and rejects the run
promise with the aggregate error message stating `k + 1` tasks failed,
carrying the list of completed outcomes gathered so far.  With `k = 0` the
very first failure aborts. -/
theorem C1_tolerance_policy (tasks : List QueuedTask) (limit k : Nat)
    (trace : List Nat) (w index : Nat) (lbl : Option String) :
    ((runAll tasks limit (some k) trace).failedTasks.length ≤ k →
      (runAll tasks limit (some k) trace).abort = false ∧
      ∀ res msg, (runAll tasks limit (some k) trace).settled ≠
        some (Settlement.rejected res msg)) ∧
    ((runAll tasks limit (some k) trace).workers[w]? =
        some (WorkerState.inFlight index false lbl) →
      (runAll tasks limit (some k) trace).failedTasks.length = k →
      (stepRun (runAll tasks limit (some k) trace) w).abort = true ∧
      (stepRun (runAll tasks limit (some k) trace) w).settled =
        some (Settlement.rejected
          (runAll tasks limit (some k) trace).completeTasks
          (toleranceMsg (k + 1)))) := by
  have hi := runnerInv_runAll tasks limit (some k) trace
  constructor
  · intro hle
    have habort : (runAll tasks limit (some k) trace).abort = false := by
      rw [hi.abortIff]
      simp only [breached, decide_eq_false_iff_not]
      omega
    refine ⟨habort, ?_⟩
    intro res msg hres
    have hab := hi.rejectedAbort res msg hres
    simp [hab] at habort
  · intro hw hlen
    have habort : (runAll tasks limit (some k) trace).abort = false := by
      rw [hi.abortIff]
      simp only [breached, decide_eq_false_iff_not]
      omega
    have hA1 : 1 ≤ (runAll tasks limit (some k) trace).numActive := by
      rw [hi.activeCount]
      exact countP_pos_of_getElem isInFlightW _ w _ hw rfl
    have hsettled : (runAll tasks limit (some k) trace).settled = none := by
      cases hset : (runAll tasks limit (some k) trace).settled with
      | none => rfl
      | some y =>
        cases y with
        | resolved res =>
          obtain ⟨_, _, hA0⟩ := hi.resolvedNoAbort habort res hset
          omega
        | rejected res msg =>
          have hab := hi.rejectedAbort res msg hset
          simp [hab] at habort
    have hstep : stepRun (runAll tasks limit (some k) trace) w =
        finishTask (runAll tasks limit (some k) trace) w index false lbl := by
      unfold stepRun
      rw [hw]
    have hbr : breached (some k)
        ((runAll tasks limit (some k) trace).failedTasks.length + 1) = true := by
      simp only [breached, decide_eq_true_eq]
      omega
    have hmid : recordOutcome (runAll tasks limit (some k) trace) index false lbl =
        { runAll tasks limit (some k) trace with
          failedTasks := (runAll tasks limit (some k) trace).failedTasks ++
            [{ index := index, label := lbl }]
          events := (runAll tasks limit (some k) trace).events ++
            [(EventName.taskFailed, { index := index, label := lbl })]
          abort := true
          settled := some (Settlement.rejected
            (runAll tasks limit (some k) trace).completeTasks
            (toleranceMsg ((runAll tasks limit (some k) trace).failedTasks.length + 1))) } := by
      simp [recordOutcome, hi.tolEq, hbr, hsettled, settleWith]
    rw [hstep]
    unfold finishTask
    rw [hmid, hlen]
    constructor
    · simp [finishFinally]
    · simp [finishFinally, settleWith]

/-- Witness for `C1_tolerance_policy` with `tolerance = 0`: a single rejecting
task; after the spawn step the worker is in flight with zero recorded
failures (part (a): no abort, no rejection), and its finish step - the first
failure - sets the abort flag and rejects with the aggregate message for one
failed task and an empty partial result list. -/
theorem C1_tolerance_witness :
    (runAll [QueuedTask.mk false none] 1 (some 0) [0]).abort = false ∧
    (stepRun (runAll [QueuedTask.mk false none] 1 (some 0) [0]) 0).abort = true ∧
    (stepRun (runAll [QueuedTask.mk false none] 1 (some 0) [0]) 0).settled =
      some (Settlement.rejected [] (toleranceMsg 1)) :=
  ⟨((C1_tolerance_policy [QueuedTask.mk false none] 1 0 [0] 0 1 none).1
      (by decide)).1,
    ((C1_tolerance_policy [QueuedTask.mk false none] 1 0 [0] 0 1 none).2
      rfl rfl).1,
    ((C1_tolerance_policy [QueuedTask.mk false none] 1 0 [0] 0 1 none).2
      rfl rfl).2⟩

/-- A finish step taken while the abort flag is already set: the in-flight
task still records its outcome into the matching accumulator and still emits
its event, the counters are adjusted, the worker stops (the `finally` check
`this.complete || this.#abort` holds), and the already settled promise is
untouched (`resolve`/`reject` on a settled promise are no-ops; a repeated
tolerance breach re-enters the reject branch but changes nothing). -/
theorem finishTask_of_abort (tol : Option Nat) (s : RunnerState)
    (w index : Nat) (ok : Bool) (lbl : Option String) (y : Settlement)
    (htol : s.tolerance = tol)
    (habort : s.abort = true)
    (habortiff : s.abort = breached tol s.failedTasks.length)
    (hy : s.settled = some y) :
    finishTask s w index ok lbl = { s with
      completeTasks := s.completeTasks ++
        (if ok then [{ index := index, label := lbl }] else [])
      failedTasks := s.failedTasks ++
        (if ok then [] else [{ index := index, label := lbl }])
      events := s.events ++
        [((if ok then EventName.taskCompleted else EventName.taskFailed),
          { index := index, label := lbl })]
      numComplete := s.numComplete + 1
      numActive := s.numActive - 1
      workers := s.workers.set w WorkerState.done } := by
  have hbf : breached tol s.failedTasks.length = true := by
    rw [← habortiff]
    exact habort
  cases ok with
  | true =>
    show finishFinally (recordOutcome s index true lbl) w = _
    rw [show recordOutcome s index true lbl = { s with
        completeTasks := s.completeTasks ++ [{ index := index, label := lbl }]
        events := s.events ++
          [(EventName.taskCompleted, { index := index, label := lbl })] } from by
      simp [recordOutcome]]
    simp [finishFinally, habort, hy, settleWith]
  | false =>
    have hbr : breached tol (s.failedTasks.length + 1) = true :=
      breached_mono tol (Nat.le_succ s.failedTasks.length) hbf
    show finishFinally (recordOutcome s index false lbl) w = _
    rw [show recordOutcome s index false lbl = { s with
        failedTasks := s.failedTasks ++ [{ index := index, label := lbl }]
        events := s.events ++
          [(EventName.taskFailed, { index := index, label := lbl })]
        abort := true
        settled := some y } from by
      simp [recordOutcome, htol, hbr, hy, settleWith]]
    simp [finishFinally, habort, hy, settleWith]

/-- C5: once the abort flag is set in a reachable state of a run, any further
scheduler step of any worker performs no dequeue (the queue and the dequeue
log are unchanged - a `ready` worker returns at `if (this.#abort) return`);
a worker whose task was already in flight still records its outcome (success
into `completeTasks`, failure into `#failedTasks`) and still emits its
`taskCompleted`/`taskFailed` event; and no step changes the settlement of the
run promise (the finishing of an in-flight task after abort triggers no
further abort processing: the promise is already settled and stays as it
is). -/
theorem C5_abort_behavior (tasks : List QueuedTask) (limit : Nat)
    (tol : Option Nat) (trace : List Nat) (w : Nat)
    (ha : (runAll tasks limit tol trace).abort = true) :
    (stepRun (runAll tasks limit tol trace) w).queue =
      (runAll tasks limit tol trace).queue ∧
    (stepRun (runAll tasks limit tol trace) w).assignedIndices =
      (runAll tasks limit tol trace).assignedIndices ∧
    (stepRun (runAll tasks limit tol trace) w).settled =
      (runAll tasks limit tol trace).settled ∧
    ∀ i ok lbl, (runAll tasks limit tol trace).workers[w]? =
        some (WorkerState.inFlight i ok lbl) →
      (stepRun (runAll tasks limit tol trace) w).events =
        (runAll tasks limit tol trace).events ++
          [((if ok then EventName.taskCompleted else EventName.taskFailed),
            { index := i, label := lbl })] ∧
      (ok = true → (stepRun (runAll tasks limit tol trace) w).completeTasks =
        (runAll tasks limit tol trace).completeTasks ++
          [{ index := i, label := lbl }]) ∧
      (ok = false → (stepRun (runAll tasks limit tol trace) w).failedTasks =
        (runAll tasks limit tol trace).failedTasks ++
          [{ index := i, label := lbl }]) := by
  have hi := runnerInv_runAll tasks limit tol trace
  have hsome := hi.abortSettled ha
  obtain ⟨y, hy⟩ := Option.isSome_iff_exists.1 hsome
  cases hw : (runAll tasks limit tol trace).workers[w]? with
  | none =>
    have hstep : stepRun (runAll tasks limit tol trace) w =
        runAll tasks limit tol trace := by
      unfold stepRun
      rw [hw]
    rw [hstep]
    refine ⟨rfl, rfl, rfl, ?_⟩
    intro i ok lbl hw2
    cases hw2
  | some st =>
    cases st with
    | done =>
      have hstep : stepRun (runAll tasks limit tol trace) w =
          runAll tasks limit tol trace := by
        unfold stepRun
        rw [hw]
      rw [hstep]
      refine ⟨rfl, rfl, rfl, ?_⟩
      intro i ok lbl hw2
      simp at hw2
    | ready =>
      have hstep : stepRun (runAll tasks limit tol trace) w =
          { runAll tasks limit tol trace with
            workers := (runAll tasks limit tol trace).workers.set w
              WorkerState.done } := by
        unfold stepRun
        rw [hw]
        show startTask (runAll tasks limit tol trace) w = _
        simp [startTask, ha]
      rw [hstep]
      refine ⟨rfl, rfl, rfl, ?_⟩
      intro i ok lbl hw2
      simp at hw2
    | inFlight i0 ok0 lbl0 =>
      have hstep : stepRun (runAll tasks limit tol trace) w =
          finishTask (runAll tasks limit tol trace) w i0 ok0 lbl0 := by
        unfold stepRun
        rw [hw]
      have hfin := finishTask_of_abort tol (runAll tasks limit tol trace) w i0
        ok0 lbl0 y hi.tolEq ha hi.abortIff hy
      rw [hstep, hfin]
      refine ⟨rfl, rfl, rfl, ?_⟩
      intro i ok lbl hw2
      rw [Option.some_inj] at hw2
      injection hw2 with h4 h5 h6
      subst h4
      subst h5
      subst h6
      refine ⟨rfl, ?_, ?_⟩
      · intro hok
        subst hok
        simp
      · intro hok
        subst hok
        simp

/-- Witness for `C5_abort_behavior`: three tasks, `concurrentLimit = 2`,
`tolerance = 0`; schedule: both workers dequeue, then worker 0's task fails
and aborts/rejects the run.  Worker 1's task is still in flight; its finish
step leaves the queue (holding the never-dequeued third task) and the settled
rejection untouched while still appending its success outcome. -/
theorem C5_abort_witness :
    (stepRun (runAll [QueuedTask.mk false none, QueuedTask.mk true none,
        QueuedTask.mk true none] 2 (some 0) [0, 1, 0]) 1).queue =
      (runAll [QueuedTask.mk false none, QueuedTask.mk true none,
        QueuedTask.mk true none] 2 (some 0) [0, 1, 0]).queue ∧
    (stepRun (runAll [QueuedTask.mk false none, QueuedTask.mk true none,
        QueuedTask.mk true none] 2 (some 0) [0, 1, 0]) 1).settled =
      (runAll [QueuedTask.mk false none, QueuedTask.mk true none,
        QueuedTask.mk true none] 2 (some 0) [0, 1, 0]).settled ∧
    (stepRun (runAll [QueuedTask.mk false none, QueuedTask.mk true none,
        QueuedTask.mk true none] 2 (some 0) [0, 1, 0]) 1).completeTasks =
      (runAll [QueuedTask.mk false none, QueuedTask.mk true none,
        QueuedTask.mk true none] 2 (some 0) [0, 1, 0]).completeTasks ++
        [{ index := 2, label := none }] :=
  ⟨(C5_abort_behavior [QueuedTask.mk false none, QueuedTask.mk true none,
      QueuedTask.mk true none] 2 (some 0) [0, 1, 0] 1 rfl).1,
    (C5_abort_behavior [QueuedTask.mk false none, QueuedTask.mk true none,
      QueuedTask.mk true none] 2 (some 0) [0, 1, 0] 1 rfl).2.2.1,
    ((C5_abort_behavior [QueuedTask.mk false none, QueuedTask.mk true none,
      QueuedTask.mk true none] 2 (some 0) [0, 1, 0] 1 rfl).2.2.2 2 true none
      rfl).2.1 rfl⟩
